import Mathlib

/-!
Verification development for the events CRUD backend
(FastAPI + DynamoDB, files app/validators.py, app/models.py,
app/database.py, app/exceptions.py, app/main.py).

The Python code is shallowly embedded: pure validation helpers become Lean
functions on String and Int, the DynamoDB table becomes an association list
from event ids to attribute maps, and each gateway operation becomes an
explicit state-passing function returning Except.  Exceptions are modelled
by the DomainError type, which mirrors the three exception classes of
exceptions.py.
-/

deriving instance DecidableEq for Except

namespace EventsCrud

/-! ### Python string.strip model -/

/-- Whitespace test used by the model of Python str.strip. -/
def ws (c : Char) : Bool := c.isWhitespace

/-- Trim whitespace from both ends of a character list. -/
def trimList (cs : List Char) : List Char :=
  ((cs.dropWhile ws).reverse.dropWhile ws).reverse

/-- Model of Python str.strip (no arguments): remove leading and trailing
whitespace. -/
def pyStrip (s : String) : String := ⟨trimList s.data⟩

/-! ### Model of datetime parsing

datetime.fromisoformat (Python 3.11) is modelled on the common ISO-8601
forms the repository relies on: a calendar date YYYY-MM-DD, optionally
followed by a separator (T or space), a time HH[:MM[:SS[.ffffff]]] and an
optional +HH:MM / -HH:MM offset.  datetime.strptime with format %Y-%m-%d is
modelled as the bare calendar date.  Calendar validity (month lengths, leap
years, year at least 1) is checked as fromisoformat does. -/

/-- Numeric value of a two-digit char pair. -/
def toN2 (a b : Char) : Nat := (a.toNat - 48) * 10 + (b.toNat - 48)

/-- Numeric value of a four-digit char quadruple. -/
def toN4 (a b c d : Char) : Nat := toN2 a b * 100 + toN2 c d

/-- Gregorian leap-year rule. -/
def isLeap (y : Nat) : Bool := (y % 4 == 0 && y % 100 != 0) || y % 400 == 0

/-- Number of days in a month. -/
def daysInMonth (y mo : Nat) : Nat :=
  if mo = 2 then (if isLeap y then 29 else 28)
  else if mo = 4 ∨ mo = 6 ∨ mo = 9 ∨ mo = 11 then 30 else 31

/-- Calendar validity of a year/month/day triple. -/
def dateValid (y mo d : Nat) : Bool :=
  decide (1 ≤ y ∧ 1 ≤ mo ∧ mo ≤ 12 ∧ 1 ≤ d ∧ d ≤ daysInMonth y mo)

/-- UTC offset suffix: sign, two hour digits, colon, two minute digits. -/
def offsetOk : List Char → Bool
  | [s, h1, h2, ':', m1, m2] =>
    (s = '+' || s = '-') && h1.isDigit && h2.isDigit && m1.isDigit && m2.isDigit &&
      decide (toN2 h1 h2 ≤ 23 ∧ toN2 m1 m2 ≤ 59)
  | _ => false

/-- Fractional seconds (one to six digits) followed by an optional offset. -/
def fracThenOffset (cs : List Char) : Bool :=
  let frac := cs.takeWhile Char.isDigit
  let rest := cs.dropWhile Char.isDigit
  decide (1 ≤ frac.length ∧ frac.length ≤ 6) && (rest.isEmpty || offsetOk rest)

/-- What may follow the seconds field. -/
def afterSec : List Char → Bool
  | [] => true
  | '.' :: rest => fracThenOffset rest
  | rest => offsetOk rest

/-- What may follow the minutes field. -/
def afterMin : List Char → Bool
  | [] => true
  | ':' :: s1 :: s2 :: rest =>
    s1.isDigit && s2.isDigit && decide (toN2 s1 s2 ≤ 59) && afterSec rest
  | rest => offsetOk rest

/-- What may follow the hours field. -/
def afterHour : List Char → Bool
  | [] => true
  | ':' :: m1 :: m2 :: rest =>
    m1.isDigit && m2.isDigit && decide (toN2 m1 m2 ≤ 59) && afterMin rest
  | rest => offsetOk rest

/-- Time-of-day part of an ISO-8601 datetime. -/
def timeOk : List Char → Bool
  | h1 :: h2 :: rest => h1.isDigit && h2.isDigit && decide (toN2 h1 h2 ≤ 23) && afterHour rest
  | _ => false

/-- ISO-8601 date or datetime, as a character-list grammar. -/
def isoDateTimeList : List Char → Bool
  | y1 :: y2 :: y3 :: y4 :: '-' :: mo1 :: mo2 :: '-' :: d1 :: d2 :: rest =>
    y1.isDigit && y2.isDigit && y3.isDigit && y4.isDigit &&
    mo1.isDigit && mo2.isDigit && d1.isDigit && d2.isDigit &&
    dateValid (toN4 y1 y2 y3 y4) (toN2 mo1 mo2) (toN2 d1 d2) &&
    (match rest with
     | [] => true
     | sep :: t => (sep = 'T' || sep = ' ') && timeOk t)
  | _ => false

/-- Model of the Python expression value.replace(Z, +00:00): every letter Z
is replaced by the six characters of +00:00. -/
def replaceZ : List Char → List Char
  | [] => []
  | c :: rest => (if c = 'Z' then ['+', '0', '0', ':', '0', '0'] else [c]) ++ replaceZ rest

/-- String version of replaceZ. -/
def replaceZstr (s : String) : String := ⟨replaceZ s.data⟩

/-- Model of datetime.fromisoformat succeeding on a string. -/
def fromisoformatOk (s : String) : Bool := isoDateTimeList s.data

/-- Bare calendar date YYYY-MM-DD, the strptime fallback of models.py. -/
def strpDateList : List Char → Bool
  | [y1, y2, y3, y4, '-', mo1, mo2, '-', d1, d2] =>
    y1.isDigit && y2.isDigit && y3.isDigit && y4.isDigit &&
    mo1.isDigit && mo2.isDigit && d1.isDigit && d2.isDigit &&
    dateValid (toN4 y1 y2 y3 y4) (toN2 mo1 mo2) (toN2 d1 d2)
  | _ => false

/-- String version of strpDateList. -/
def strpDateOk (s : String) : Bool := strpDateList s.data

/-! ### Error taxonomy (exceptions.py)

EventNotFoundException, DatabaseException and ValidationException become the
three constructors of DomainError; the exception handlers of exceptions.py
become the statusCode mapping. -/

/-- Domain errors: the three exception classes of exceptions.py.
EventNotFoundException carries the event id; DatabaseException carries its
message (the optional original error is dropped, it only feeds logging);
ValidationException carries a message and an optional field name. -/
inductive DomainError where
  | eventNotFound (event_id : String)
  | databaseError (message : String)
  | validationError (message : String) (field : Option String)
deriving DecidableEq, Repr

/-- The exception class of a domain error, mirroring which Python exception
class would be raised. -/
inductive ExcClass where
  | notFoundClass
  | databaseClass
  | validationClass
deriving DecidableEq, Repr

/-- Which exception class a domain error belongs to. -/
def excClassOf : DomainError → ExcClass
  | .eventNotFound _ => .notFoundClass
  | .databaseError _ => .databaseClass
  | .validationError _ _ => .validationClass

/-- HTTP status code chosen by the exception handlers of exceptions.py:
event_not_found_handler returns 404, database_exception_handler returns 500,
validation_exception_handler returns 422 (request_validation_exception_handler,
for pydantic model failures, also returns 422 and is folded into the
validationError constructor). -/
def statusCode : DomainError → Nat
  | .eventNotFound _ => 404
  | .databaseError _ => 500
  | .validationError _ _ => 422

/-- True on the ok branch of an Except value. -/
def isOkE {α : Type} : Except DomainError α → Bool
  | .ok _ => true
  | .error _ => false

/-- The field recorded in a validation error, if the value is one:
returns some f when the value is a ValidationException with field slot f. -/
def errField {α : Type} : Except DomainError α → Option (Option String)
  | .error (.validationError _ f) => some f
  | _ => none

/-! ### validators.py -/

/-- validators.validate_date_format: fromisoformat after replacing Z with
+00:00; on parse failure a ValidationException naming the date field. -/
def validate_date_format (date_str : String) : Except DomainError Bool :=
  if fromisoformatOk (replaceZstr date_str) then .ok true
  else .error (.validationError "Date must be in ISO format (e.g., 2024-06-15T09:00:00Z)" (some "date"))

/-- validators.validate_future_date.  The comparison of the parsed date with
the current clock (datetime.now) is an input from the outside world and is
modelled by the oracle isPast; parse failures of fromisoformat surface as the
generic invalid-date ValidationException of the final except branch. -/
def validate_future_date (date_str : String) (allow_past : Bool)
    (isPast : String → Bool) : Except DomainError Bool :=
  if fromisoformatOk (replaceZstr date_str) then
    if !allow_past && isPast date_str then
      .error (.validationError "Event date must be in the future" (some "date"))
    else .ok true
  else .error (.validationError "Invalid date format" (some "date"))

/-- The valid_statuses list of validators.validate_status (note: it omits
the active status that the pydantic models accept). -/
def valid_statuses : List String := ["draft", "published", "cancelled", "completed"]

/-- validators.validate_status. -/
def validate_status (status : String) : Except DomainError Bool :=
  if status ∈ valid_statuses then .ok true
  else .error (.validationError
    ("Status must be one of: " ++ String.intercalate ", " valid_statuses) (some "status"))

/-- validators.validate_capacity (defaults min_val 1, max_val 100000). -/
def validate_capacity (capacity : Int) (min_val : Int) (max_val : Int) :
    Except DomainError Bool :=
  if capacity < min_val then
    .error (.validationError ("Capacity must be at least " ++ toString min_val) (some "capacity"))
  else if capacity > max_val then
    .error (.validationError ("Capacity cannot exceed " ++ toString max_val) (some "capacity"))
  else .ok true

/-- validators.sanitize_string: trim, reject empty results, optionally reject
over-length results (the max_length guard follows Python truthiness, so a
max_length of 0 disables the check like None does).  Neither failure names a
field. -/
def sanitize_string (value : String) (max_length : Option Nat) :
    Except DomainError String :=
  if pyStrip value = "" then
    .error (.validationError "Field cannot be empty or contain only whitespace" none)
  else
    match max_length with
    | some m =>
      if m ≠ 0 ∧ (pyStrip value).length > m then
        .error (.validationError
          ("Field exceeds maximum length of " ++ toString m ++ " characters") none)
      else .ok (pyStrip value)
    | none => .ok (pyStrip value)

/-! ### models.py — pydantic models

EventBase / EventCreate / EventUpdate are embedded as validation functions.
Field constraints declared with pydantic Field (min_length, max_length,
gt, le) run before the field_validator functions, which run in after mode.
Error messages of the built-in constraints are modelled, not copied
verbatim from pydantic; the field validators raise the exact messages of
models.py.  Pydantic collects several field errors at once; the embedding
returns the first one, which is enough for every claim below. -/

/-- Pydantic Field min_length / max_length check on the raw value. -/
def checkLen (field : String) (v : String) (minL maxL : Nat) :
    Except DomainError Unit :=
  if v.length < minL then
    .error (.validationError ("String should have at least " ++ toString minL ++ " characters") (some field))
  else if v.length > maxL then
    .error (.validationError ("String should have at most " ++ toString maxL ++ " characters") (some field))
  else .ok ()

/-- EventBase.validate_not_empty: reject empty or whitespace-only strings,
return the stripped value. -/
def validate_not_empty (field v : String) : Except DomainError String :=
  if v = "" ∨ pyStrip v = "" then
    .error (.validationError "Field cannot be empty or contain only whitespace" (some field))
  else .ok (pyStrip v)

/-- EventBase.validate_date_format: fromisoformat after Z replacement, with
a strptime %Y-%m-%d fallback; the value is returned untrimmed. -/
def eventBase_validate_date (v : String) : Except DomainError String :=
  if fromisoformatOk (replaceZstr v) then .ok v
  else if strpDateOk v then .ok v
  else .error (.validationError
    "Date must be in ISO 8601 format (e.g., 2024-06-15 or 2024-06-15T09:00:00Z)" (some "date"))

/-- The status Literal of models.py (EventBase and EventUpdate): the
five-value set including active. -/
def statusLiteralOk (s : String) : Bool :=
  s = "draft" || s = "published" || s = "active" || s = "cancelled" || s = "completed"

/-- Pydantic gt 0 / le 100000 constraints plus validate_capacity_range of
models.py (the range checks coincide). -/
def checkCapacity (v : Int) : Except DomainError Unit :=
  if ¬ (0 < v) then
    .error (.validationError "Input should be greater than 0" (some "capacity"))
  else if ¬ (v ≤ 100000) then
    .error (.validationError "Input should be less than or equal to 100000" (some "capacity"))
  else if v < 1 then
    .error (.validationError "Capacity must be at least 1" (some "capacity"))
  else if v > 100000 then
    .error (.validationError "Capacity cannot exceed 100,000" (some "capacity"))
  else .ok ()

/-- Raw (deserialized, not yet validated) EventCreate payload. -/
structure EventCreateRaw where
  eventId : Option String
  title : String
  description : String
  date : String
  location : String
  capacity : Int
  organizer : String
  status : String
deriving DecidableEq, Repr

/-- A validated EventCreate, as dumped by model_dump() in the create
handler: trimmed strings, checked capacity and status, optional eventId. -/
structure EventCreateData where
  eventId : Option String
  title : String
  description : String
  date : String
  location : String
  capacity : Int
  organizer : String
  status : String
deriving DecidableEq, Repr

/-- Validation of an EventCreate payload: per-field pydantic constraints
followed by the field validators of models.py, in field order. -/
def eventCreate_validate (r : EventCreateRaw) : Except DomainError EventCreateData :=
  match checkLen "title" r.title 1 200 with
  | .error e => .error e
  | .ok _ =>
  match validate_not_empty "title" r.title with
  | .error e => .error e
  | .ok title =>
  match checkLen "description" r.description 1 1000 with
  | .error e => .error e
  | .ok _ =>
  match validate_not_empty "description" r.description with
  | .error e => .error e
  | .ok description =>
  match eventBase_validate_date r.date with
  | .error e => .error e
  | .ok date =>
  match checkLen "location" r.location 1 200 with
  | .error e => .error e
  | .ok _ =>
  match validate_not_empty "location" r.location with
  | .error e => .error e
  | .ok location =>
  match checkCapacity r.capacity with
  | .error e => .error e
  | .ok _ =>
  match checkLen "organizer" r.organizer 1 100 with
  | .error e => .error e
  | .ok _ =>
  match validate_not_empty "organizer" r.organizer with
  | .error e => .error e
  | .ok organizer =>
  if ¬ statusLiteralOk r.status then
    .error (.validationError "Input should be a valid status literal" (some "status"))
  else
  match r.eventId with
  | none =>
    .ok ⟨none, title, description, date, location, r.capacity, organizer, r.status⟩
  | some v =>
    match checkLen "eventId" v 1 200 with
    | .error e => .error e
    | .ok _ =>
    if v = "" ∨ pyStrip v = "" then
      .error (.validationError "Event ID cannot be empty or contain only whitespace" (some "eventId"))
    else
      .ok ⟨some (pyStrip v), title, description, date, location, r.capacity, organizer, r.status⟩

/-! ### EventUpdate — parsing a PUT body

The JSON body of a PUT is a finite map from keys to JSON values; only the
string, integer and null values matter for the event fields.  Pydantic with
its default configuration ignores unknown keys, distinguishes an absent
field from a field explicitly set to null (model_dump with exclude_unset),
and lets null pass every per-field validator of EventUpdate. -/

/-- The JSON values that can appear in an update payload. -/
inductive JVal where
  | jnull
  | jstr (s : String)
  | jint (n : Int)
deriving DecidableEq, Repr

/-- Lookup of a key in a JSON object (first occurrence). -/
def jlookup : List (String × JVal) → String → Option JVal
  | [], _ => none
  | e :: rest, k => if e.1 = k then some e.2 else jlookup rest k

/-- Presence-tracked optional field of EventUpdate: absent, explicitly
null, or present with a validated value. -/
inductive OptField (α : Type) where
  | unset
  | setNull
  | setVal (v : α)
deriving DecidableEq, Repr

/-- Parse and validate one optional string field of EventUpdate from its
JSON value: absent stays unset, null passes, a string runs the Field
length constraints and then EventUpdate.validate_not_empty (which strips). -/
def parseStrVal (name : String) (minL maxL : Nat) (jv : Option JVal) :
    Except DomainError (OptField String) :=
  match jv with
  | none => .ok .unset
  | some .jnull => .ok .setNull
  | some (.jint _) => .error (.validationError "Input should be a valid string" (some name))
  | some (.jstr s) =>
    match checkLen name s minL maxL with
    | .error e => .error e
    | .ok _ =>
      if s = "" ∨ pyStrip s = "" then
        .error (.validationError "Field cannot be empty or contain only whitespace" (some name))
      else .ok (.setVal (pyStrip s))

/-- Parse and validate the optional date field of EventUpdate. -/
def parseDateVal (jv : Option JVal) : Except DomainError (OptField String) :=
  match jv with
  | none => .ok .unset
  | some .jnull => .ok .setNull
  | some (.jint _) => .error (.validationError "Input should be a valid string" (some "date"))
  | some (.jstr s) =>
    if fromisoformatOk (replaceZstr s) then .ok (.setVal s)
    else if strpDateOk s then .ok (.setVal s)
    else .error (.validationError
      "Date must be in ISO 8601 format (e.g., 2024-06-15 or 2024-06-15T09:00:00Z)" (some "date"))

/-- Parse and validate the optional capacity field of EventUpdate
(numeric-string coercion of pydantic lax mode is not modelled; no claim
depends on it). -/
def parseCapVal (jv : Option JVal) : Except DomainError (OptField Int) :=
  match jv with
  | none => .ok .unset
  | some .jnull => .ok .setNull
  | some (.jstr _) => .error (.validationError "Input should be a valid integer" (some "capacity"))
  | some (.jint n) =>
    match checkCapacity n with
    | .error e => .error e
    | .ok _ => .ok (.setVal n)

/-- Parse and validate the optional status field of EventUpdate (the
five-value Literal of models.py). -/
def parseStatusVal (jv : Option JVal) : Except DomainError (OptField String) :=
  match jv with
  | none => .ok .unset
  | some .jnull => .ok .setNull
  | some (.jint _) => .error (.validationError "Input should be a valid string" (some "status"))
  | some (.jstr s) =>
    if statusLiteralOk s then .ok (.setVal s)
    else .error (.validationError "Input should be a valid status literal" (some "status"))

/-- A validated EventUpdate with presence tracking per field. -/
structure EventUpdatePatch where
  title : OptField String
  description : OptField String
  date : OptField String
  location : OptField String
  capacity : OptField Int
  organizer : OptField String
  status : OptField String
deriving DecidableEq, Repr

/-- Parse a PUT body into an EventUpdate: each declared field is read from
the JSON object; keys outside the seven declared fields (eventId,
createdAt, anything else) are ignored by pydantic's default config. -/
def parseEventUpdate (body : List (String × JVal)) :
    Except DomainError EventUpdatePatch :=
  match parseStrVal "title" 1 200 (jlookup body "title") with
  | .error e => .error e
  | .ok title =>
  match parseStrVal "description" 1 1000 (jlookup body "description") with
  | .error e => .error e
  | .ok description =>
  match parseDateVal (jlookup body "date") with
  | .error e => .error e
  | .ok date =>
  match parseStrVal "location" 1 200 (jlookup body "location") with
  | .error e => .error e
  | .ok location =>
  match parseCapVal (jlookup body "capacity") with
  | .error e => .error e
  | .ok capacity =>
  match parseStrVal "organizer" 1 100 (jlookup body "organizer") with
  | .error e => .error e
  | .ok organizer =>
  match parseStatusVal (jlookup body "status") with
  | .error e => .error e
  | .ok status =>
    .ok ⟨title, description, date, location, capacity, organizer, status⟩

/-! ### DynamoDB items and attribute values -/

/-- A DynamoDB attribute value: the repository stores strings and the
integer capacity. -/
inductive AttrValue where
  | s (v : String)
  | n (v : Int)
deriving DecidableEq, Repr

/-- A stored item: an attribute map, as the Python dicts put into the
table. -/
abbrev Item := List (String × AttrValue)

/-- Attribute lookup in an item. -/
def getAttr : Item → String → Option AttrValue
  | [], _ => none
  | e :: rest, k => if e.1 = k then some e.2 else getAttr rest k

/-- Attribute assignment in an item (replace the first binding or append),
the model of both dict assignment and a SET clause of update_item. -/
def setAttr : Item → String → AttrValue → Item
  | [], k, v => [(k, v)]
  | e :: rest, k, v => if e.1 = k then (k, v) :: rest else e :: setAttr rest k v

/-- The dump of one OptField under model_dump with exclude_unset. -/
def dumpField (name : String) (f : OptField AttrValue) :
    List (String × Option AttrValue) :=
  match f with
  | .unset => []
  | .setNull => [(name, none)]
  | .setVal v => [(name, some v)]

/-- Map a function over the value of an OptField. -/
def omap {α β : Type} (f : α → β) : OptField α → OptField β
  | .unset => .unset
  | .setNull => .setNull
  | .setVal v => .setVal (f v)

/-- model_dump(exclude_unset=True) on an EventUpdate: the dict passed by
the PUT handler to the store gateway, in model field order.  Absent fields
are omitted, explicitly-null fields appear with value none. -/
def dumpPatch (p : EventUpdatePatch) : List (String × Option AttrValue) :=
  dumpField "title" (omap AttrValue.s p.title) ++
  dumpField "description" (omap AttrValue.s p.description) ++
  dumpField "date" (omap AttrValue.s p.date) ++
  dumpField "location" (omap AttrValue.s p.location) ++
  dumpField "capacity" (omap AttrValue.n p.capacity) ++
  dumpField "organizer" (omap AttrValue.s p.organizer) ++
  dumpField "status" (omap AttrValue.s p.status)

/-! ### database.py — the DynamoDB store gateway

The table is an association list from event ids to items.  Each operation
of DynamoDBClient becomes a function from the current table (plus the
inputs the real code obtains from the outside world: the generated UUID and
the current clock) to an Except result and the new table.  A
ConditionalCheckFailedException of DynamoDB corresponds to the conditional
lookup failing; any transport failure would surface as the databaseError
"Database connection error" and is not generated by the model, which
describes the store's committed behaviour. -/

/-- The DynamoDB table: event id to stored item. -/
abbrev Store := List (String × Item)

/-- Key lookup in the table (get_item on the eventId key). -/
def lookupStore : Store → String → Option Item
  | [], _ => none
  | e :: rest, k => if e.1 = k then some e.2 else lookupStore rest k

/-- Write an item under a key (replace or insert). -/
def storeSet : Store → String → Item → Store
  | [], k, it => [(k, it)]
  | e :: rest, k, it => if e.1 = k then (k, it) :: rest else e :: storeSet rest k it

/-- Remove a key from the table. -/
def storeErase : Store → String → Store
  | [], _ => []
  | e :: rest, k => if e.1 = k then rest else e :: storeErase rest k

/-- The item dict built by DynamoDBClient.create_event: eventId, createdAt
and updatedAt stamped first (createdAt and updatedAt from the same
timestamp), then the payload fields in EventCreate field order. -/
def createItem (event_id now : String) (d : EventCreateData) : Item :=
  [("eventId", .s event_id), ("createdAt", .s now), ("updatedAt", .s now),
   ("title", .s d.title), ("description", .s d.description), ("date", .s d.date),
   ("location", .s d.location), ("capacity", .n d.capacity),
   ("organizer", .s d.organizer), ("status", .s d.status)]

/-- The event id chosen by create_event: the id popped from the payload,
or the generated UUID when the popped value is falsy (None or the empty
string). -/
def createEventId (genId : String) (d : EventCreateData) : String :=
  match d.eventId with
  | none => genId
  | some s => if s = "" then genId else s

/-- DynamoDBClient.create_event.  The event id is popped from the payload;
a missing or empty id (Python falsiness of None and the empty string) is
replaced by a generated UUID, modelled by the genId argument.  put_item
runs under the condition attribute_not_exists(eventId): an existing key
raises the ConditionalCheckFailedException branch, a DatabaseException with
the duplicate-id message. -/
def create_event (store : Store) (genId now : String) (d : EventCreateData) :
    Except DomainError (Item × Store) :=
  if (lookupStore store (createEventId genId d)).isSome then
    .error (.databaseError "Event with this ID already exists")
  else
    .ok (createItem (createEventId genId d) now d,
         storeSet store (createEventId genId d) (createItem (createEventId genId d) now d))

/-- DynamoDBClient.get_event: reject an empty or whitespace-only id with a
DatabaseException, otherwise a strongly consistent get_item. -/
def get_event (store : Store) (event_id : String) :
    Except DomainError (Option Item) :=
  if event_id = "" ∨ pyStrip event_id = "" then
    .error (.databaseError "Event ID cannot be empty")
  else .ok (lookupStore store event_id)

/-- One response of table.scan: the returned page and, when the scan
stopped before the final item of the table, the key to resume from. -/
structure ScanResponse where
  items : List Item
  lastEvaluatedKey : Option Nat
deriving DecidableEq, Repr

/-- The number of items one scan call evaluates: the backend's internal
page size for that call (at least one — the 1 MB page bound of DynamoDB
always covers at least one item), further bounded by the requested Limit
when one was passed. -/
def scanK (caps : Nat → Nat) (call : Nat) (lim : Option Nat) : Nat :=
  match lim with
  | none => max (caps call) 1
  | some l => min l (max (caps call) 1)

/-- Model of table.scan.  The table is scanned in order from the resume
position; the backend returns the next scanK items.  LastEvaluatedKey is
present exactly when items remain beyond the returned page. -/
def scanModel (table : List Item) (caps : Nat → Nat) (call start : Nat)
    (lim : Option Nat) : ScanResponse :=
  ⟨(table.drop start).take (scanK caps call lim),
   if start + ((table.drop start).take (scanK caps call lim)).length < table.length then
     some (start + ((table.drop start).take (scanK caps call lim)).length)
   else none⟩

/-- The Limit passed on a rescan: the remaining count when a limit was
given, no Limit otherwise. -/
def remLimit (limit : Option Nat) (collected : Nat) : Option Nat :=
  match limit with
  | none => none
  | some l => some (l - collected)

/-- The while loop of DynamoDBClient.list_events, with explicit fuel (the
loop advances at least one item per iteration, so fuel equal to the table
size suffices).  The loop keeps scanning while a LastEvaluatedKey is
present and, when a limit was given, fewer than limit items were
collected; each rescan requests the remaining count. -/
def listLoop (table : List Item) (caps : Nat → Nat) (limit : Option Nat) :
    Nat → Nat → List Item → Option Nat → List Item
  | 0, _, items, _ => items
  | _ + 1, _, items, none => items
  | fuel + 1, call, items, some pos =>
    if (match limit with | none => true | some l => decide (items.length < l)) then
      listLoop table caps limit fuel (call + 1)
        (items ++ (scanModel table caps call pos (remLimit limit items.length)).items)
        (scanModel table caps call pos (remLimit limit items.length)).lastEvaluatedKey
    else items

/-- DynamoDBClient.list_events: an initial scan (with Limit only when the
limit argument is truthy — None and 0 are falsy in Python) followed by the
pagination loop. -/
def list_events (table : List Item) (caps : Nat → Nat) (limit : Option Nat) :
    List Item :=
  let lim0 := match limit with
    | none => none
    | some l => if l = 0 then none else some l
  let r0 := scanModel table caps 0 0 lim0
  listLoop table caps lim0 table.length 1 r0.items r0.lastEvaluatedKey

/-- Apply the non-null entries of an update dict to an item, in dict
order: the semantics of the SET clauses built by update_event (the
reserved-keyword aliasing through ExpressionAttributeNames for status,
date and location is the identity on attribute names and is invisible
here). -/
def applyUpdates (item : Item) (ud : List (String × Option AttrValue)) : Item :=
  ud.foldl (fun it e =>
    match e.2 with
    | some v => setAttr it e.1 v
    | none => it) item

/-- The item produced by a non-empty update: updatedAt stamped to the
update time, then every non-null patch entry applied. -/
def updItem (item : Item) (now : String) (ud : List (String × Option AttrValue)) : Item :=
  applyUpdates (setAttr item "updatedAt" (.s now)) ud

/-- DynamoDBClient.update_event: reject a blank id; an empty update dict is
answered by get_event without touching the table; otherwise update_item
with the SET expression runs under the condition attribute_exists(eventId),
whose failure (no item under the key) raises EventNotFoundException, and
returns the new attribute values. -/
def update_event (store : Store) (now : String) (event_id : String)
    (update_data : List (String × Option AttrValue)) :
    Except DomainError (Option Item × Store) :=
  if event_id = "" ∨ pyStrip event_id = "" then
    .error (.databaseError "Event ID cannot be empty")
  else if update_data = [] then
    match get_event store event_id with
    | .error e => .error e
    | .ok it => .ok (it, store)
  else
    match lookupStore store event_id with
    | none => .error (.eventNotFound event_id)
    | some item =>
      let newItem := updItem item now update_data
      .ok (some newItem, storeSet store event_id newItem)

/-- DynamoDBClient.delete_event: reject a blank id; delete_item runs under
the condition attribute_exists(eventId), whose failure raises
EventNotFoundException. -/
def delete_event (store : Store) (event_id : String) :
    Except DomainError (Bool × Store) :=
  if event_id = "" ∨ pyStrip event_id = "" then
    .error (.databaseError "Event ID cannot be empty")
  else
    match lookupStore store event_id with
    | none => .error (.eventNotFound event_id)
    | some _ => .ok (true, storeErase store event_id)

/-! ### main.py — the PUT handler logic that is in scope -/

/-- The body of main.update_event after the EventUpdate model validated:
model_dump with exclude_unset, rejection of an empty dict with the
no-fields ValidationException (no field name), then the gateway update. -/
def update_event_handler (store : Store) (now : String) (event_id : String)
    (p : EventUpdatePatch) : Except DomainError (Option Item × Store) :=
  if dumpPatch p = [] then
    .error (.validationError "No fields provided for update" none)
  else
    update_event store now event_id (dumpPatch p)

/-- The seven field names declared by EventUpdate, in model order. -/
def updateFieldNames : List String :=
  ["title", "description", "date", "location", "capacity", "organizer", "status"]

/-! ### Concrete fixtures used by counterexamples and witnesses -/

/-- A stored item under id e1. -/
def fixtureItem : Item :=
  [("eventId", .s "e1"), ("createdAt", .s "t0"), ("updatedAt", .s "t0"),
   ("title", .s "T"), ("description", .s "D"), ("date", .s "2024-06-15"),
   ("location", .s "L"), ("capacity", .n 5), ("organizer", .s "O"), ("status", .s "draft")]

/-- A store holding exactly the item under id e1. -/
def fixtureStore : Store := [("e1", fixtureItem)]

/-- A validated create payload whose eventId collides with e1. -/
def fixtureCreateDup : EventCreateData :=
  ⟨some "e1", "T", "D", "2024-06-15", "L", 5, "O", "draft"⟩

/-- A raw create payload without eventId and with padded strings. -/
def fixtureCreateRaw : EventCreateRaw :=
  ⟨none, " T ", " D ", "2024-06-15T09:00:00Z", " L ", 5, " O ", "active"⟩

/-- A five-item table for the pagination witness. -/
def fixtureTable : List Item :=
  [[("eventId", .s "a")], [("eventId", .s "b")], [("eventId", .s "c")],
   [("eventId", .s "d")], [("eventId", .s "e")]]

/-- The EventUpdate patch setting only the title to X. -/
def patchTitleX : EventUpdatePatch :=
  ⟨.setVal "X", .unset, .unset, .unset, .unset, .unset, .unset⟩

/-- The EventUpdate patch whose only set field is an explicit null title. -/
def patchTitleNull : EventUpdatePatch :=
  ⟨.setNull, .unset, .unset, .unset, .unset, .unset, .unset⟩

/-- The validated form of fixtureCreateRaw. -/
def fixtureCreateOk : EventCreateData :=
  ⟨none, "T", "D", "2024-06-15T09:00:00Z", "L", 5, "O", "active"⟩

/-! ### Supporting lemmas: trimming -/

theorem dropWhile_self {α : Type} (p : α → Bool) (l : List α) :
    List.dropWhile p (List.dropWhile p l) = List.dropWhile p l := by
  induction l with
  | nil => rfl
  | cons c t ih =>
    cases h : p c
    · simp [List.dropWhile_cons, h]
    · simpa [List.dropWhile_cons, h] using ih

theorem dropWhile_append_last {α : Type} {p : α → Bool} {a : α} (ha : p a = false)
    (xs : List α) : ∃ ys, List.dropWhile p (xs ++ [a]) = ys ++ [a] := by
  induction xs with
  | nil => exact ⟨[], by simp [List.dropWhile_cons, ha]⟩
  | cons x t ih =>
    cases h : p x
    · exact ⟨x :: t, by simp [List.dropWhile_cons, h]⟩
    · simpa [List.dropWhile_cons, h] using ih

theorem dropWhile_head_false {α : Type} {p : α → Bool} {l : List α} {a : α} {t : List α}
    (h : List.dropWhile p l = a :: t) : p a = false := by
  induction l with
  | nil => simp at h
  | cons x xs ih =>
    cases hpx : p x
    · rw [List.dropWhile_cons, hpx] at h
      simp at h
      rw [← h.1]
      exact hpx
    · rw [List.dropWhile_cons, hpx] at h
      simp at h
      exact ih h

theorem dropWhile_eq_self_of_head {α : Type} {p : α → Bool} {l : List α}
    (h : ∀ a t, l = a :: t → p a = false) : List.dropWhile p l = l := by
  cases l with
  | nil => rfl
  | cons a t => rw [List.dropWhile_cons, h a t rfl]; simp

theorem getLast?_cons_ne {α : Type} (a : α) {l : List α} (h : l ≠ []) :
    (a :: l).getLast? = l.getLast? := by
  cases l with
  | nil => exact absurd rfl h
  | cons b t => exact List.getLast?_cons_cons

theorem trimList_eq_self {cs : List Char} {a b : Char}
    (hhead : cs.head? = some a) (ha : ws a = false)
    (hlast : cs.getLast? = some b) (hb : ws b = false) :
    trimList cs = cs := by
  unfold trimList
  have h1 : cs.dropWhile ws = cs := by
    apply dropWhile_eq_self_of_head
    intro x t hx
    rw [hx] at hhead
    simp at hhead
    rw [hhead]
    exact ha
  rw [h1]
  have h2 : cs.reverse.dropWhile ws = cs.reverse := by
    apply dropWhile_eq_self_of_head
    intro x t hx
    have hx2 : cs.reverse.head? = some x := by rw [hx]; rfl
    rw [List.head?_reverse] at hx2
    rw [hlast] at hx2
    simp at hx2
    rw [← hx2]
    exact hb
  rw [h2, List.reverse_reverse]

theorem trimList_idem (cs : List Char) : trimList (trimList cs) = trimList cs := by
  rcases hA : cs.dropWhile ws with _ | ⟨a, A'⟩
  · have hT : trimList cs = [] := by
      unfold trimList
      rw [hA]
      rfl
    rw [hT]
    rfl
  · have hwa : ws a = false := dropWhile_head_false hA
    obtain ⟨ys, hys⟩ := dropWhile_append_last hwa A'.reverse
    have hT : trimList cs = (ys ++ [a]).reverse := by
      unfold trimList
      rw [hA, List.reverse_cons, hys]
    rw [hT]
    have hhead : ((ys ++ [a]).reverse).head? = some a := by
      rw [List.head?_reverse, List.getLast?_concat]
    rcases hy : ys with _ | ⟨y, yt⟩
    · subst hy
      apply trimList_eq_self hhead hwa _ hwa
      rw [List.getLast?_reverse]
      rfl
    · subst hy
      have hwy : ws y = false := by
        apply dropWhile_head_false (t := yt ++ [a])
        rw [hys]
        rfl
      apply trimList_eq_self hhead hwa _ hwy
      rw [List.getLast?_reverse]
      rfl

theorem pyStrip_idem (s : String) : pyStrip (pyStrip s) = pyStrip s := by
  show (⟨trimList (pyStrip s).data⟩ : String) = pyStrip s
  have : (pyStrip s).data = trimList s.data := rfl
  rw [this, trimList_idem]
  rfl

/-! ### Supporting lemmas: accepted dates carry no surrounding whitespace -/

theorem digit_not_ws {c : Char} (h : c.isDigit = true) : ws c = false := by
  unfold ws
  cases hw : c.isWhitespace
  · rfl
  · exfalso
    unfold Char.isWhitespace at hw
    simp only [Bool.or_eq_true, decide_eq_true_eq] at hw
    rcases hw with ((h1 | h1) | h1) | h1 <;> rw [h1] at h <;> exact absurd h (by decide)

theorem ne_nil_of_getLast_some {α : Type} {l : List α} {c : α}
    (h : l.getLast? = some c) : l ≠ [] := by
  cases l with
  | nil => simp at h
  | cons a t => simp

theorem offsetOk_last {cs : List Char} (h : offsetOk cs = true) :
    ∃ c, cs.getLast? = some c ∧ c.isDigit = true := by
  unfold offsetOk at h
  split at h
  · rename_i s h1 h2 m1 m2
    simp only [Bool.and_eq_true] at h
    exact ⟨m2, rfl, h.1.2⟩
  · simp at h

theorem fracThenOffset_last {cs : List Char} (h : fracThenOffset cs = true) :
    ∃ c, cs.getLast? = some c ∧ c.isDigit = true := by
  unfold fracThenOffset at h
  simp only [Bool.and_eq_true, Bool.or_eq_true, decide_eq_true_eq] at h
  obtain ⟨⟨hf1, _⟩, hrest⟩ := h
  rcases hrest with hre | hoff
  · have hempty : cs.dropWhile Char.isDigit = [] := by
      simpa [List.isEmpty_iff] using hre
    have hcs : cs.takeWhile Char.isDigit = cs := by
      have := List.takeWhile_append_dropWhile Char.isDigit cs
      rw [hempty] at this
      simpa using this
    rcases ht : cs.takeWhile Char.isDigit with _ | ⟨x, xt⟩
    · rw [ht] at hf1; simp at hf1
    · rw [ht] at hcs
      refine ⟨(x :: xt).getLast (by simp), ?_, ?_⟩
      · rw [← hcs, List.getLast?_eq_getLast]
      · have hmem : (x :: xt).getLast (by simp) ∈ cs.takeWhile Char.isDigit := by
          rw [ht]; exact List.getLast_mem _
        exact List.mem_takeWhile_imp hmem
  · obtain ⟨c, hc, hd⟩ := offsetOk_last hoff
    refine ⟨c, ?_, hd⟩
    have hsplit := List.takeWhile_append_dropWhile Char.isDigit cs
    have hne : cs.dropWhile Char.isDigit ≠ [] := by
      intro hx
      rw [hx] at hoff
      simp [offsetOk] at hoff
    rw [← hsplit, List.getLast?_append_of_ne_nil _ hne]
    exact hc

theorem afterSec_last {cs : List Char} (h : afterSec cs = true) :
    cs = [] ∨ ∃ c, cs.getLast? = some c ∧ c.isDigit = true := by
  unfold afterSec at h
  split at h
  · exact Or.inl rfl
  · rename_i rest
    right
    obtain ⟨c, hc, hd⟩ := fracThenOffset_last h
    refine ⟨c, ?_, hd⟩
    rw [getLast?_cons_ne _ (ne_nil_of_getLast_some hc)]
    exact hc
  · exact Or.inr (offsetOk_last h)

theorem afterMin_last {cs : List Char} (h : afterMin cs = true) :
    cs = [] ∨ ∃ c, cs.getLast? = some c ∧ c.isDigit = true := by
  unfold afterMin at h
  split at h
  · exact Or.inl rfl
  · rename_i s1 s2 rest
    right
    simp only [Bool.and_eq_true] at h
    obtain ⟨⟨⟨hs1, hs2⟩, _⟩, hsec⟩ := h
    rcases afterSec_last hsec with hre | ⟨c, hc, hd⟩
    · subst hre
      exact ⟨s2, rfl, hs2⟩
    · refine ⟨c, ?_, hd⟩
      have hne := ne_nil_of_getLast_some hc
      rw [getLast?_cons_ne ':' (by simp), getLast?_cons_ne s1 (by simp [hne]),
        getLast?_cons_ne s2 hne]
      exact hc
  · exact Or.inr (offsetOk_last h)

theorem afterHour_last {cs : List Char} (h : afterHour cs = true) :
    cs = [] ∨ ∃ c, cs.getLast? = some c ∧ c.isDigit = true := by
  unfold afterHour at h
  split at h
  · exact Or.inl rfl
  · rename_i m1 m2 rest
    right
    simp only [Bool.and_eq_true] at h
    obtain ⟨⟨⟨hm1, hm2⟩, _⟩, hmin⟩ := h
    rcases afterMin_last hmin with hre | ⟨c, hc, hd⟩
    · subst hre
      exact ⟨m2, rfl, hm2⟩
    · refine ⟨c, ?_, hd⟩
      have hne := ne_nil_of_getLast_some hc
      rw [getLast?_cons_ne ':' (by simp), getLast?_cons_ne m1 (by simp [hne]),
        getLast?_cons_ne m2 hne]
      exact hc
  · exact Or.inr (offsetOk_last h)

theorem timeOk_last {cs : List Char} (h : timeOk cs = true) :
    ∃ c, cs.getLast? = some c ∧ c.isDigit = true := by
  unfold timeOk at h
  split at h
  · rename_i h1 h2 rest
    simp only [Bool.and_eq_true] at h
    obtain ⟨⟨⟨hh1, hh2⟩, _⟩, hah⟩ := h
    rcases afterHour_last hah with hre | ⟨c, hc, hd⟩
    · subst hre
      exact ⟨h2, rfl, hh2⟩
    · refine ⟨c, ?_, hd⟩
      have hne := ne_nil_of_getLast_some hc
      rw [getLast?_cons_ne h1 (by simp [hne]), getLast?_cons_ne h2 hne]
      exact hc
  · simp at h

theorem isoDateTimeList_last {cs : List Char} (h : isoDateTimeList cs = true) :
    ∃ c, cs.getLast? = some c ∧ c.isDigit = true := by
  unfold isoDateTimeList at h
  split at h
  · rename_i y1 y2 y3 y4 mo1 mo2 d1 d2 rest
    simp only [Bool.and_eq_true] at h
    obtain ⟨⟨⟨⟨⟨⟨⟨⟨⟨hy1, hy2⟩, hy3⟩, hy4⟩, hmo1⟩, hmo2⟩, hd1⟩, hd2⟩, _⟩, hrest⟩ := h
    rcases hre : rest with _ | ⟨sep, t⟩
    · subst hre
      exact ⟨d2, rfl, hd2⟩
    · subst hre
      rw [Bool.and_eq_true] at hrest
      obtain ⟨c, hc, hd⟩ := timeOk_last hrest.2
      refine ⟨c, ?_, hd⟩
      have hne := ne_nil_of_getLast_some hc
      show (([y1, y2, y3, y4, '-', mo1, mo2, '-', d1, d2, sep] : List Char) ++ t).getLast? = some c
      rw [List.getLast?_append_of_ne_nil _ hne]
      exact hc
  · simp at h

theorem isoDateTimeList_head {cs : List Char} (h : isoDateTimeList cs = true) :
    ∃ c t, cs = c :: t ∧ c.isDigit = true := by
  unfold isoDateTimeList at h
  split at h
  · rename_i y1 y2 y3 y4 mo1 mo2 d1 d2 rest
    simp only [Bool.and_eq_true] at h
    exact ⟨y1, _, rfl, h.1.1.1.1.1.1.1.1.1⟩
  · simp at h

theorem replaceZ_cons_ne_nil (c : Char) (rest : List Char) :
    replaceZ (c :: rest) ≠ [] := by
  cases hc : decide (c = 'Z') <;> simp_all [replaceZ]

theorem replaceZ_getLast? {cs : List Char} {b : Char} (h : cs.getLast? = some b) :
    (replaceZ cs).getLast? = some (if b = 'Z' then '0' else b) := by
  induction cs with
  | nil => simp at h
  | cons c rest ih =>
    rcases hr : rest with _ | ⟨d, t⟩
    · subst hr
      have hcb : c = b := by simpa using h
      subst hcb
      by_cases hc : c = 'Z'
      · simp [replaceZ, hc]
      · simp [replaceZ, hc]
    · subst hr
      have hne : replaceZ (d :: t) ≠ [] := replaceZ_cons_ne_nil d t
      have h2 : (d :: t).getLast? = some b := by
        rw [← getLast?_cons_ne c (by simp)]
        exact h
      show ((if c = 'Z' then ['+', '0', '0', ':', '0', '0'] else [c]) ++
        replaceZ (d :: t)).getLast? = _
      rw [List.getLast?_append_of_ne_nil _ hne]
      exact ih h2

theorem replaceZ_head_cases (c : Char) (t : List Char) :
    (replaceZ (c :: t)).head? = some (if c = 'Z' then '+' else c) := by
  by_cases hc : c = 'Z'
  · simp [replaceZ, hc]
  · simp [replaceZ, hc]

theorem strp_trim {cs : List Char} (h : strpDateList cs = true) : trimList cs = cs := by
  unfold strpDateList at h
  split at h
  · rename_i y1 y2 y3 y4 mo1 mo2 d1 d2
    simp only [Bool.and_eq_true] at h
    obtain ⟨⟨⟨⟨⟨⟨⟨⟨hy1, _⟩, _⟩, _⟩, _⟩, _⟩, _⟩, hd2⟩, _⟩ := h
    exact trimList_eq_self rfl (digit_not_ws hy1) rfl (digit_not_ws hd2)
  · simp at h

theorem iso_trim {cs : List Char} (h : isoDateTimeList (replaceZ cs) = true) :
    trimList cs = cs := by
  obtain ⟨c, ct, hsh, hcd⟩ := isoDateTimeList_head h
  obtain ⟨b, hlb, hbd⟩ := isoDateTimeList_last h
  rcases hv : cs with _ | ⟨a, rest⟩
  · rfl
  · subst hv
    have hh := replaceZ_head_cases a rest
    rw [hsh] at hh
    simp at hh
    have hwa : ws a = false := by
      by_cases ha : a = 'Z'
      · rw [if_pos ha] at hh
        rw [hh] at hcd
        exact absurd hcd (by decide)
      · rw [if_neg ha] at hh
        rw [hh] at hcd
        exact digit_not_ws hcd
    have hlast : (a :: rest).getLast? = some ((a :: rest).getLast (by simp)) :=
      List.getLast?_eq_getLast _ _
    have hrepl := replaceZ_getLast? hlast
    rw [hlb] at hrepl
    simp at hrepl
    have hwb : ws ((a :: rest).getLast (by simp)) = false := by
      by_cases hbz : (a :: rest).getLast (by simp) = 'Z'
      · rw [hbz]; decide
      · rw [if_neg hbz] at hrepl
        rw [← hrepl]
        exact digit_not_ws hbd
    exact trimList_eq_self rfl hwa hlast hwb

/-- An accepted date string (either branch of the models.py date validator)
has no surrounding whitespace. -/
theorem pyStrip_of_dateOk {v : String}
    (h : fromisoformatOk (replaceZstr v) = true ∨ strpDateOk v = true) :
    pyStrip v = v := by
  have htrim : trimList v.data = v.data := by
    rcases h with h | h
    · exact iso_trim h
    · exact strp_trim h
  show (⟨trimList v.data⟩ : String) = v
  rw [htrim]

/-! ### Supporting lemmas: attribute maps and update dicts -/

theorem getAttr_setAttr_self (it : Item) (k : String) (v : AttrValue) :
    getAttr (setAttr it k v) k = some v := by
  induction it with
  | nil => simp [setAttr, getAttr]
  | cons e rest ih =>
    by_cases h : e.1 = k
    · simp [setAttr, h, getAttr]
    · simp [setAttr, h, getAttr, ih]

theorem getAttr_setAttr_ne (it : Item) (k : String) (v : AttrValue) (k' : String)
    (h : k' ≠ k) : getAttr (setAttr it k v) k' = getAttr it k' := by
  induction it with
  | nil =>
    have hk : k ≠ k' := Ne.symm h
    simp [setAttr, getAttr, hk]
  | cons e rest ih =>
    by_cases he : e.1 = k
    · have hk : k ≠ k' := Ne.symm h
      simp [setAttr, he, getAttr, hk]
    · simp [setAttr, he, getAttr, ih]

theorem applyUpdates_all_none :
    ∀ (ud : List (String × Option AttrValue)) (it : Item),
    (∀ e ∈ ud, e.2 = none) → applyUpdates it ud = it := by
  intro ud
  induction ud with
  | nil => intro it _; rfl
  | cons e rest ih =>
    intro it h
    obtain ⟨k0, v0⟩ := e
    have he : v0 = none := h (k0, v0) (by simp)
    subst he
    have hstep : applyUpdates it ((k0, (none : Option AttrValue)) :: rest) =
        applyUpdates it rest := rfl
    rw [hstep]
    exact ih it (fun x hx => h x (List.mem_cons_of_mem _ hx))

theorem applyUpdates_frame :
    ∀ (ud : List (String × Option AttrValue)) (it : Item) (k : String),
    (∀ v, ((k, some v) : String × Option AttrValue) ∉ ud) →
    getAttr (applyUpdates it ud) k = getAttr it k := by
  intro ud
  induction ud with
  | nil => intro it k _; rfl
  | cons e rest ih =>
    intro it k h
    obtain ⟨k0, v0⟩ := e
    rcases v0 with _ | v0
    · have hstep : applyUpdates it ((k0, (none : Option AttrValue)) :: rest) =
          applyUpdates it rest := rfl
      rw [hstep]
      exact ih it k (fun v hv => h v (List.mem_cons_of_mem _ hv))
    · have hk0 : k0 ≠ k := by
        intro hk
        subst hk
        exact h v0 (by simp)
      have hstep : applyUpdates it ((k0, some v0) :: rest) =
          applyUpdates (setAttr it k0 v0) rest := rfl
      rw [hstep]
      rw [ih (setAttr it k0 v0) k (fun v hv => h v (List.mem_cons_of_mem _ hv))]
      exact getAttr_setAttr_ne _ _ _ _ (Ne.symm hk0)

theorem applyUpdates_applied :
    ∀ (ud : List (String × Option AttrValue)) (it : Item) (k : String) (v : AttrValue),
    (ud.map Prod.fst).Nodup → ((k, some v) : String × Option AttrValue) ∈ ud →
    getAttr (applyUpdates it ud) k = some v := by
  intro ud
  induction ud with
  | nil => intro it k v _ hm; simp at hm
  | cons e rest ih =>
    intro it k v hnd hm
    obtain ⟨k0, v0⟩ := e
    rw [List.map_cons, List.nodup_cons] at hnd
    have hk0nin : k0 ∉ List.map Prod.fst rest := hnd.1
    have hndr : (List.map Prod.fst rest).Nodup := hnd.2
    rcases List.mem_cons.mp hm with heq | hmr
    · have hk : k = k0 := congrArg Prod.fst heq
      subst hk
      have hv : some v = v0 := congrArg Prod.snd heq
      subst hv
      have hstep : applyUpdates it ((k, some v) :: rest) =
          applyUpdates (setAttr it k v) rest := rfl
      rw [hstep]
      rw [applyUpdates_frame rest (setAttr it k v) k
        (fun v' hv' => hk0nin (List.mem_map_of_mem Prod.fst hv'))]
      exact getAttr_setAttr_self it k v
    · rcases v0 with _ | v0
      · have hstep : applyUpdates it ((k0, (none : Option AttrValue)) :: rest) =
            applyUpdates it rest := rfl
        rw [hstep]
        exact ih it k v hndr hmr
      · have hstep : applyUpdates it ((k0, some v0) :: rest) =
            applyUpdates (setAttr it k0 v0) rest := rfl
        rw [hstep]
        exact ih (setAttr it k0 v0) k v hndr hmr

theorem dumpField_keys_sublist (name : String) (f : OptField AttrValue) :
    ((dumpField name f).map Prod.fst).Sublist [name] := by
  cases f with
  | unset => exact List.nil_sublist _
  | setNull => exact List.Sublist.refl _
  | setVal v => exact List.Sublist.refl _

theorem dumpPatch_keys_sublist (p : EventUpdatePatch) :
    ((dumpPatch p).map Prod.fst).Sublist updateFieldNames := by
  have h :=
    ((((((dumpField_keys_sublist "title" (omap AttrValue.s p.title)).append
      (dumpField_keys_sublist "description" (omap AttrValue.s p.description))).append
      (dumpField_keys_sublist "date" (omap AttrValue.s p.date))).append
      (dumpField_keys_sublist "location" (omap AttrValue.s p.location))).append
      (dumpField_keys_sublist "capacity" (omap AttrValue.n p.capacity))).append
      (dumpField_keys_sublist "organizer" (omap AttrValue.s p.organizer))).append
      (dumpField_keys_sublist "status" (omap AttrValue.s p.status))
  simpa [dumpPatch, List.map_append, updateFieldNames] using h

theorem dumpPatch_keys_nodup (p : EventUpdatePatch) :
    ((dumpPatch p).map Prod.fst).Nodup :=
  (dumpPatch_keys_sublist p).nodup (by decide)

theorem dumpPatch_key_mem {p : EventUpdatePatch} {k : String} {v : Option AttrValue}
    (h : (k, v) ∈ dumpPatch p) : k ∈ updateFieldNames :=
  (dumpPatch_keys_sublist p).subset (List.mem_map_of_mem Prod.fst h)

theorem dumpPatch_key_not_system {p : EventUpdatePatch} {k : String} {v : Option AttrValue}
    (h : (k, v) ∈ dumpPatch p) :
    k ≠ "updatedAt" ∧ k ≠ "eventId" ∧ k ≠ "createdAt" := by
  have hm := dumpPatch_key_mem h
  unfold updateFieldNames at hm
  simp at hm
  rcases hm with rfl | rfl | rfl | rfl | rfl | rfl | rfl <;> refine ⟨?_, ?_, ?_⟩ <;> decide

/-! ### Supporting lemmas: pagination of list_events -/


theorem listLoop_lek_none (table : List Item) (caps : Nat → Nat) (limit : Option Nat)
    (fuel call : Nat) (items : List Item) :
    listLoop table caps limit fuel call items none = items := by
  cases fuel <;> rfl

theorem listLoop_done (table : List Item) (caps : Nat → Nat) (l : Nat)
    (fuel call : Nat) (items : List Item) (pos : Nat) (h : ¬ items.length < l) :
    listLoop table caps (some l) fuel call items (some pos) = items := by
  cases fuel with
  | zero => rfl
  | succ fuel =>
    simp only [listLoop]
    rw [if_neg (by simpa using h)]

theorem listLoop_take (table : List Item) (caps : Nat → Nat) (l : Nat) :
    ∀ fuel pos call, pos < table.length → pos < l → table.length - pos ≤ fuel →
    listLoop table caps (some l) fuel call (table.take pos) (some pos) =
      table.take (min l table.length) := by
  intro fuel
  induction fuel with
  | zero => intro pos call h1 _ h3; omega
  | succ fuel ih =>
    intro pos call hpos hlt hfuel
    have hlen : (table.take pos).length = pos := by
      rw [List.length_take]; omega
    simp only [listLoop]
    rw [if_pos (by simp only [decide_eq_true_eq, hlen]; exact hlt)]
    have hrem : remLimit (some l) (table.take pos).length = some (l - pos) := by
      rw [hlen]; rfl
    rw [hrem]
    have hitems : (scanModel table caps call pos (some (l - pos))).items =
        (table.drop pos).take (scanK caps call (some (l - pos))) := rfl
    have hlek : (scanModel table caps call pos (some (l - pos))).lastEvaluatedKey =
        (if pos + ((table.drop pos).take (scanK caps call (some (l - pos)))).length < table.length
         then some (pos + ((table.drop pos).take (scanK caps call (some (l - pos)))).length)
         else none) := rfl
    rw [hitems, hlek]
    have htlen : ((table.drop pos).take (scanK caps call (some (l - pos)))).length =
        min (scanK caps call (some (l - pos))) (table.length - pos) := by
      rw [List.length_take, List.length_drop]
    rw [htlen]
    have happ : table.take pos ++ (table.drop pos).take (scanK caps call (some (l - pos))) =
        table.take (pos + scanK caps call (some (l - pos))) :=
      (List.take_add table pos _).symm
    rw [happ]
    have hk : scanK caps call (some (l - pos)) = min (l - pos) (max (caps call) 1) := rfl
    have hk1 : 1 ≤ scanK caps call (some (l - pos)) := by rw [hk]; omega
    have hkle : scanK caps call (some (l - pos)) ≤ l - pos := by rw [hk]; omega
    by_cases hend : pos + min (scanK caps call (some (l - pos))) (table.length - pos) < table.length
    · rw [if_pos hend]
      have hknp : scanK caps call (some (l - pos)) ≤ table.length - pos := by omega
      have hmin : min (scanK caps call (some (l - pos))) (table.length - pos) =
          scanK caps call (some (l - pos)) := by omega
      rw [hmin] at hend ⊢
      by_cases hl2 : pos + scanK caps call (some (l - pos)) < l
      · exact ih (pos + scanK caps call (some (l - pos))) (call + 1) hend hl2 (by omega)
      · have hpk : pos + scanK caps call (some (l - pos)) = l := by omega
        rw [listLoop_done table caps l fuel (call + 1) _ _ ?_]
        · rw [hpk]
          have : min l table.length = l := by omega
          rw [this]
        · rw [List.length_take, hpk]
          omega
    · rw [if_neg hend]
      rw [listLoop_lek_none]
      have hn : table.length ≤ pos + scanK caps call (some (l - pos)) := by omega
      have hnl : table.length ≤ l := by omega
      rw [List.take_of_length_le hn, List.take_of_length_le (by omega)]



theorem listLoop_all (table : List Item) (caps : Nat → Nat) :
    ∀ fuel pos call, pos < table.length → table.length - pos ≤ fuel →
    listLoop table caps none fuel call (table.take pos) (some pos) = table := by
  intro fuel
  induction fuel with
  | zero => intro pos call h1 h2; omega
  | succ fuel ih =>
    intro pos call hpos hfuel
    simp only [listLoop]
    rw [if_pos (by simp)]
    have hrem : remLimit none (table.take pos).length = none := rfl
    rw [hrem]
    have hitems : (scanModel table caps call pos none).items =
        (table.drop pos).take (scanK caps call none) := rfl
    have hlek : (scanModel table caps call pos none).lastEvaluatedKey =
        (if pos + ((table.drop pos).take (scanK caps call none)).length < table.length
         then some (pos + ((table.drop pos).take (scanK caps call none)).length)
         else none) := rfl
    rw [hitems, hlek]
    have htlen : ((table.drop pos).take (scanK caps call none)).length =
        min (scanK caps call none) (table.length - pos) := by
      rw [List.length_take, List.length_drop]
    rw [htlen]
    have happ : table.take pos ++ (table.drop pos).take (scanK caps call none) =
        table.take (pos + scanK caps call none) :=
      (List.take_add table pos _).symm
    rw [happ]
    have hk : scanK caps call none = max (caps call) 1 := rfl
    have hk1 : 1 ≤ scanK caps call none := by rw [hk]; omega
    by_cases hend : pos + min (scanK caps call none) (table.length - pos) < table.length
    · rw [if_pos hend]
      have hmin : min (scanK caps call none) (table.length - pos) = scanK caps call none := by
        omega
      rw [hmin] at hend ⊢
      exact ih (pos + scanK caps call none) (call + 1) hend (by omega)
    · rw [if_neg hend]
      rw [listLoop_lek_none]
      have hn : table.length ≤ pos + scanK caps call none := by omega
      rw [List.take_of_length_le hn]

theorem list_events_take (table : List Item) (caps : Nat → Nat) (l : Nat) (hl : 1 ≤ l) :
    list_events table caps (some l) = table.take l := by
  simp only [list_events]
  rw [if_neg (show ¬ l = 0 by omega)]
  have hitems : (scanModel table caps 0 0 (some l)).items =
      table.take (scanK caps 0 (some l)) := by
    show (table.drop 0).take (scanK caps 0 (some l)) = _
    rw [List.drop_zero]
  have hlek : (scanModel table caps 0 0 (some l)).lastEvaluatedKey =
      (if (table.take (scanK caps 0 (some l))).length < table.length
       then some (table.take (scanK caps 0 (some l))).length
       else none) := by
    show (if 0 + ((table.drop 0).take (scanK caps 0 (some l))).length < table.length
          then some (0 + ((table.drop 0).take (scanK caps 0 (some l))).length)
          else none) = _
    rw [List.drop_zero, Nat.zero_add]
  rw [hitems, hlek]
  have htlen : (table.take (scanK caps 0 (some l))).length =
      min (scanK caps 0 (some l)) table.length := by
    rw [List.length_take]
  rw [htlen]
  have hk : scanK caps 0 (some l) = min l (max (caps 0) 1) := rfl
  have hk1 : 1 ≤ scanK caps 0 (some l) := by rw [hk]; omega
  have hkle : scanK caps 0 (some l) ≤ l := by rw [hk]; omega
  have hminln : table.take (min l table.length) = table.take l := by
    by_cases h : l ≤ table.length
    · rw [min_eq_left h]
    · rw [min_eq_right (by omega), List.take_of_length_le (le_refl _),
        List.take_of_length_le (by omega)]
  by_cases hend : min (scanK caps 0 (some l)) table.length < table.length
  · rw [if_pos hend]
    have hkn : scanK caps 0 (some l) ≤ table.length := by omega
    have hmin : min (scanK caps 0 (some l)) table.length = scanK caps 0 (some l) := by omega
    rw [hmin] at hend ⊢
    by_cases hl2 : scanK caps 0 (some l) < l
    · rw [show table.take (scanK caps 0 (some l)) =
        table.take (scanK caps 0 (some l)) from rfl]
      have := listLoop_take table caps l table.length (scanK caps 0 (some l)) 1 hend hl2
        (by omega)
      rw [this]
      exact hminln
    · have hkl : scanK caps 0 (some l) = l := by omega
      rw [listLoop_done table caps l table.length 1 _ _ ?_]
      · rw [hkl]
      · rw [htlen, hmin, hkl]
        omega
  · rw [if_neg hend]
    rw [listLoop_lek_none]
    have hn : table.length ≤ scanK caps 0 (some l) := by omega
    rw [List.take_of_length_le hn, List.take_of_length_le (by omega)]

theorem list_events_all (table : List Item) (caps : Nat → Nat) :
    list_events table caps none = table := by
  simp only [list_events]
  have hitems : (scanModel table caps 0 0 none).items =
      table.take (scanK caps 0 none) := by
    show (table.drop 0).take (scanK caps 0 none) = _
    rw [List.drop_zero]
  have hlek : (scanModel table caps 0 0 none).lastEvaluatedKey =
      (if (table.take (scanK caps 0 none)).length < table.length
       then some (table.take (scanK caps 0 none)).length
       else none) := by
    show (if 0 + ((table.drop 0).take (scanK caps 0 none)).length < table.length
          then some (0 + ((table.drop 0).take (scanK caps 0 none)).length)
          else none) = _
    rw [List.drop_zero, Nat.zero_add]
  rw [hitems, hlek]
  have htlen : (table.take (scanK caps 0 none)).length =
      min (scanK caps 0 none) table.length := by
    rw [List.length_take]
  rw [htlen]
  have hk : scanK caps 0 none = max (caps 0) 1 := rfl
  have hk1 : 1 ≤ scanK caps 0 none := by rw [hk]; omega
  by_cases hend : min (scanK caps 0 none) table.length < table.length
  · rw [if_pos hend]
    have hmin : min (scanK caps 0 none) table.length = scanK caps 0 none := by omega
    rw [hmin] at hend ⊢
    exact listLoop_all table caps table.length (scanK caps 0 none) 1 hend (by omega)
  · rw [if_neg hend]
    rw [listLoop_lek_none]
    have hn : table.length ≤ scanK caps 0 none := by omega
    rw [List.take_of_length_le hn]


theorem validate_not_empty_ok {f v t : String} (h : validate_not_empty f v = .ok t) :
    t = pyStrip v := by
  unfold validate_not_empty at h
  split at h
  · exact Except.noConfusion h
  · injection h with h
    exact h.symm

theorem eventBase_validate_date_ok {v t : String} (h : eventBase_validate_date v = .ok t) :
    t = v ∧ (fromisoformatOk (replaceZstr v) = true ∨ strpDateOk v = true) := by
  unfold eventBase_validate_date at h
  split at h
  · rename_i hiso
    injection h with h
    exact ⟨h.symm, Or.inl hiso⟩
  · split at h
    · rename_i hstrp
      injection h with h
      exact ⟨h.symm, Or.inr hstrp⟩
    · exact Except.noConfusion h

theorem eventCreate_validate_ok {r : EventCreateRaw} {d : EventCreateData}
    (h : eventCreate_validate r = .ok d) :
    d.eventId = Option.map pyStrip r.eventId ∧
    d.title = pyStrip r.title ∧
    d.description = pyStrip r.description ∧
    d.date = r.date ∧
    (fromisoformatOk (replaceZstr r.date) = true ∨ strpDateOk r.date = true) ∧
    d.location = pyStrip r.location ∧
    d.capacity = r.capacity ∧
    d.organizer = pyStrip r.organizer ∧
    d.status = r.status ∧
    statusLiteralOk r.status = true := by
  unfold eventCreate_validate at h
  split at h
  · exact Except.noConfusion h
  split at h
  · exact Except.noConfusion h
  rename_i title htitle
  split at h
  · exact Except.noConfusion h
  split at h
  · exact Except.noConfusion h
  rename_i description hdesc
  split at h
  · exact Except.noConfusion h
  rename_i date hdate
  split at h
  · exact Except.noConfusion h
  split at h
  · exact Except.noConfusion h
  rename_i location hloc
  split at h
  · exact Except.noConfusion h
  split at h
  · exact Except.noConfusion h
  split at h
  · exact Except.noConfusion h
  rename_i organizer horg
  split at h
  · exact Except.noConfusion h
  rename_i hst
  split at h
  · rename_i heqid
    injection h with h
    subst h
    refine ⟨by rw [heqid]; rfl, validate_not_empty_ok htitle, validate_not_empty_ok hdesc,
      (eventBase_validate_date_ok hdate).1, (eventBase_validate_date_ok hdate).2,
      validate_not_empty_ok hloc, rfl, validate_not_empty_ok horg, rfl, not_not.mp hst⟩
  · rename_i v heqid
    split at h
    · exact Except.noConfusion h
    split at h
    · exact Except.noConfusion h
    injection h with h
    subst h
    refine ⟨by rw [heqid]; rfl, validate_not_empty_ok htitle, validate_not_empty_ok hdesc,
      (eventBase_validate_date_ok hdate).1, (eventBase_validate_date_ok hdate).2,
      validate_not_empty_ok hloc, rfl, validate_not_empty_ok horg, rfl, not_not.mp hst⟩


/-! ### Supporting lemmas: gateway operations -/

theorem not_blank_guard {event_id : String} (h : pyStrip event_id ≠ "") :
    ¬ (event_id = "" ∨ pyStrip event_id = "") := by
  rintro (h1 | h1)
  · subst h1
    exact h (by decide)
  · exact h h1

theorem createEventId_some {genId id : String} {d : EventCreateData}
    (hid : d.eventId = some id) (hne : id ≠ "") : createEventId genId d = id := by
  unfold createEventId
  rw [hid]
  show (if id = "" then genId else id) = id
  rw [if_neg hne]

theorem createEventId_none {genId : String} {d : EventCreateData}
    (hid : d.eventId = none) : createEventId genId d = genId := by
  unfold createEventId
  rw [hid]

theorem update_event_found {store : Store} {now event_id : String}
    {ud : List (String × Option AttrValue)} {item : Item}
    (hid : pyStrip event_id ≠ "") (hne : ud ≠ [])
    (hitem : lookupStore store event_id = some item) :
    update_event store now event_id ud =
      .ok (some (updItem item now ud), storeSet store event_id (updItem item now ud)) := by
  unfold update_event
  rw [if_neg (not_blank_guard hid), if_neg hne, hitem]

theorem parseEventUpdate_ignores (a b : JVal) (body : List (String × JVal)) :
    parseEventUpdate (("eventId", a) :: ("createdAt", b) :: body) = parseEventUpdate body := by
  have h1 : ∀ name, name ≠ "eventId" → name ≠ "createdAt" →
      jlookup (("eventId", a) :: ("createdAt", b) :: body) name = jlookup body name := by
    intro name hn1 hn2
    show (if "eventId" = name then some a else jlookup (("createdAt", b) :: body) name) =
      jlookup body name
    rw [if_neg (Ne.symm hn1)]
    show (if "createdAt" = name then some b else jlookup body name) = jlookup body name
    rw [if_neg (Ne.symm hn2)]
  unfold parseEventUpdate
  rw [h1 "title" (by decide) (by decide), h1 "description" (by decide) (by decide),
    h1 "date" (by decide) (by decide), h1 "location" (by decide) (by decide),
    h1 "capacity" (by decide) (by decide), h1 "organizer" (by decide) (by decide),
    h1 "status" (by decide) (by decide)]


/-! ### Claim theorems -/

/-- C1, counterexample: creating with the already-stored id e1 fails, but
with a DatabaseException — the very same exception class (and the same 500
status) as a connection error — so the failure is not of a Conflict kind
distinct from ConnectionError and unclassified failures, as the claim
requires. -/
theorem claim_C1_cex :
    create_event fixtureStore "gen" "t1" fixtureCreateDup =
      .error (.databaseError "Event with this ID already exists") ∧
    excClassOf (.databaseError "Event with this ID already exists") =
      excClassOf (.databaseError "Database connection error") ∧
    statusCode (.databaseError "Event with this ID already exists") =
      statusCode (.databaseError "Database connection error") := by
  refine ⟨by decide, rfl, rfl⟩

/-- C1, amended: for every create payload whose (non-empty) eventId already
names a record, create_event fails with the DatabaseException carrying the
message Event with this ID already exists; the failure is of the shared
DatabaseException class and is mapped to status 500, distinguishable from a
connection error only by its message. -/
theorem claim_C1_duplicate_create (store : Store) (genId now : String)
    (d : EventCreateData) (id : String)
    (hid : d.eventId = some id) (hne : id ≠ "")
    (hdup : (lookupStore store id).isSome = true) :
    create_event store genId now d =
      .error (.databaseError "Event with this ID already exists") ∧
    excClassOf (.databaseError "Event with this ID already exists") =
      ExcClass.databaseClass ∧
    statusCode (.databaseError "Event with this ID already exists") = 500 := by
  refine ⟨?_, rfl, rfl⟩
  unfold create_event
  rw [createEventId_some hid hne, if_pos hdup]

/-- C1, witness: the amended theorem applied to the concrete duplicate
create against the one-item fixture store. -/
theorem claim_C1_duplicate_create_witness :
    create_event fixtureStore "gen" "t1" fixtureCreateDup =
      .error (.databaseError "Event with this ID already exists") ∧
    excClassOf (.databaseError "Event with this ID already exists") =
      ExcClass.databaseClass ∧
    statusCode (.databaseError "Event with this ID already exists") = 500 :=
  claim_C1_duplicate_create fixtureStore "gen" "t1" fixtureCreateDup "e1"
    rfl (by decide) (by decide)

/-- C2, counterexample: the duplicate-id create failure and the
empty-eventId get failure are both DatabaseException values, and the
database_exception_handler maps them to 500 — not to the 422 class that the
claim promises for Conflict and Invalid-identifier failures. -/
theorem claim_C2_cex :
    create_event fixtureStore "gen" "t1" fixtureCreateDup =
      .error (.databaseError "Event with this ID already exists") ∧
    statusCode (.databaseError "Event with this ID already exists") = 500 ∧
    get_event ([] : Store) " " = .error (.databaseError "Event ID cannot be empty") ∧
    statusCode (.databaseError "Event ID cannot be empty") = 500 := by
  refine ⟨by decide, rfl, by decide, rfl⟩

/-- C2, amended: the handlers map EventNotFoundException to 404 and
ValidationException (and pydantic request-validation failures) to 422, but
every DatabaseException — including the duplicate-eventId conflict raised
by create and the empty or whitespace eventId rejection raised by get — is
mapped to 500 together with connection and unclassified errors. -/
theorem claim_C2_status_map :
    (∀ id, statusCode (.eventNotFound id) = 404) ∧
    (∀ m f, statusCode (.validationError m f) = 422) ∧
    (∀ msg, statusCode (.databaseError msg) = 500) ∧
    get_event ([] : Store) "   " = .error (.databaseError "Event ID cannot be empty") ∧
    create_event fixtureStore "gen" "t1" fixtureCreateDup =
      .error (.databaseError "Event with this ID already exists") := by
  refine ⟨fun _ => rfl, fun _ _ => rfl, fun _ => rfl, by decide, by decide⟩

/-- C4: the store-gateway update with an empty patch dict behaves as a
no-op get on an existing record — it returns the stored item unchanged
(updatedAt included) and leaves the table untouched. -/
theorem claim_C4_empty_patch_noop (store : Store) (now event_id : String) (item : Item)
    (hid : pyStrip event_id ≠ "") (hitem : lookupStore store event_id = some item) :
    update_event store now event_id [] = .ok (some item, store) := by
  unfold update_event
  rw [if_neg (not_blank_guard hid), if_pos rfl]
  unfold get_event
  rw [if_neg (not_blank_guard hid), hitem]

/-- C4, witness: the empty-patch no-op on the fixture store. -/
theorem claim_C4_empty_patch_noop_witness :
    update_event fixtureStore "t1" "e1" [] = .ok (some fixtureItem, fixtureStore) :=
  claim_C4_empty_patch_noop fixtureStore "t1" "e1" fixtureItem (by decide) (by decide)

/-- C5, counterexample: the status active is accepted by the pydantic
model Literal but rejected by validators.validate_status, so the five-value
set is not accepted by both modules. -/
theorem claim_C5_cex :
    statusLiteralOk "active" = true ∧
    validate_status "active" =
      .error (.validationError
        "Status must be one of: draft, published, cancelled, completed"
        (some "status")) := by
  decide

/-- C5, amended: the record models accept exactly the five-value status set
draft, published, active, cancelled, completed, while
validators.validate_status accepts exactly the four-value set that omits
active; every value outside the respective set fails. -/
theorem claim_C5_status_sets (s : String) :
    (statusLiteralOk s = true ↔
      (s = "draft" ∨ s = "published" ∨ s = "active" ∨ s = "cancelled" ∨ s = "completed")) ∧
    (isOkE (validate_status s) = true ↔
      (s = "draft" ∨ s = "published" ∨ s = "cancelled" ∨ s = "completed")) := by
  constructor
  · unfold statusLiteralOk
    simp only [Bool.or_eq_true, decide_eq_true_eq]
    tauto
  · unfold validate_status
    split
    · rename_i hmem
      simp only [valid_statuses, List.mem_cons, List.mem_singleton, List.not_mem_nil,
        or_false] at hmem
      exact iff_of_true rfl hmem
    · rename_i hmem
      simp only [valid_statuses, List.mem_cons, List.mem_singleton, List.not_mem_nil,
        or_false] at hmem
      exact iff_of_false (by simp [isOkE]) hmem

/-- C6, counterexample: the ValidationException raised by sanitize_string
for a whitespace-only input (and for an over-length input) carries no
field name — its field slot is none — contradicting the claim that every
validation failure names the offending field. -/
theorem claim_C6_cex :
    sanitize_string "   " none =
      .error (.validationError "Field cannot be empty or contain only whitespace" none) ∧
    sanitize_string "abcdef" (some 5) =
      .error (.validationError "Field exceeds maximum length of 5 characters" none) ∧
    errField (sanitize_string "   " none) = some none := by
  decide

/-- C6, amended: every failure of validate_date_format,
validate_future_date, validate_status and validate_capacity carries a
message and the offending field name, but the failures of sanitize_string
(empty, whitespace-only or over-length input) carry only a message — their
field slot is none. -/
theorem claim_C6_error_fields (s : String) (n lo hi : Int) (k : Option Nat)
    (ap : Bool) (oracle : String → Bool) :
    (isOkE (validate_date_format s) = true ∨
      errField (validate_date_format s) = some (some "date")) ∧
    (isOkE (validate_future_date s ap oracle) = true ∨
      errField (validate_future_date s ap oracle) = some (some "date")) ∧
    (isOkE (validate_status s) = true ∨
      errField (validate_status s) = some (some "status")) ∧
    (isOkE (validate_capacity n lo hi) = true ∨
      errField (validate_capacity n lo hi) = some (some "capacity")) ∧
    (isOkE (sanitize_string s k) = true ∨
      errField (sanitize_string s k) = some none) := by
  refine ⟨?_, ?_, ?_, ?_, ?_⟩
  · unfold validate_date_format
    split
    · exact Or.inl rfl
    · exact Or.inr rfl
  · unfold validate_future_date
    repeat' split
    all_goals first | exact Or.inl rfl | exact Or.inr rfl
  · unfold validate_status
    split
    · exact Or.inl rfl
    · exact Or.inr rfl
  · unfold validate_capacity
    repeat' split
    all_goals first | exact Or.inl rfl | exact Or.inr rfl
  · unfold sanitize_string
    repeat' split
    all_goals first | exact Or.inl rfl | exact Or.inr rfl

/-- C7, counterexample: the empty string never names a stored record, yet
update (with a non-empty patch) and delete on it fail with the blank-id
DatabaseException, not with EventNotFoundException. -/
theorem claim_C7_cex :
    lookupStore ([] : Store) "" = none ∧
    update_event ([] : Store) "t1" "" [("title", some (.s "X"))] =
      .error (.databaseError "Event ID cannot be empty") ∧
    delete_event ([] : Store) "" =
      .error (.databaseError "Event ID cannot be empty") := by
  decide

/-- C7, amended: for every eventId that is non-blank after trimming and
does not name a stored record, update with a non-empty patch and delete
both fail with EventNotFoundException, raised from the failure of the
conditional-write existence condition attribute_exists(eventId); blank ids
are rejected earlier with the Invalid-identifier DatabaseException. -/
theorem claim_C7_notfound (store : Store) (now event_id : String)
    (ud : List (String × Option AttrValue))
    (hid : pyStrip event_id ≠ "") (habs : lookupStore store event_id = none)
    (hne : ud ≠ []) :
    update_event store now event_id ud = .error (.eventNotFound event_id) ∧
    delete_event store event_id = .error (.eventNotFound event_id) := by
  constructor
  · unfold update_event
    rw [if_neg (not_blank_guard hid), if_neg hne, habs]
  · unfold delete_event
    rw [if_neg (not_blank_guard hid), habs]

/-- C7, witness: the amended theorem on an absent id over the empty store. -/
theorem claim_C7_notfound_witness :
    update_event ([] : Store) "t1" "missing" [("title", some (.s "X"))] =
      .error (.eventNotFound "missing") ∧
    delete_event ([] : Store) "missing" = .error (.eventNotFound "missing") :=
  claim_C7_notfound [] "t1" "missing" [("title", some (.s "X"))]
    (by decide) rfl (by decide)


theorem update_event_empty {store : Store} {now event_id : String} {item : Item}
    (hid : pyStrip event_id ≠ "") (hitem : lookupStore store event_id = some item) :
    update_event store now event_id [] = .ok (some item, store) := by
  unfold update_event
  rw [if_neg (not_blank_guard hid), if_pos rfl]
  unfold get_event
  rw [if_neg (not_blank_guard hid), hitem]

/-- C3: for every existing record and every parsed PUT body, the update
pipeline changes exactly the fields present with non-null values plus
updatedAt; every other attribute — eventId and createdAt in particular —
keeps its pre-update value, and eventId or createdAt keys in the raw
payload are silently dropped by the EventUpdate model (the parse result is
unchanged), not applied and not rejected. -/
theorem claim_C3_update_frame (store : Store) (now event_id : String)
    (body : List (String × JVal)) (p : EventUpdatePatch) (item : Item) (a b : JVal)
    (hid : pyStrip event_id ≠ "")
    (hparse : parseEventUpdate body = .ok p)
    (hitem : lookupStore store event_id = some item) :
    parseEventUpdate (("eventId", a) :: ("createdAt", b) :: body) = .ok p ∧
    (dumpPatch p = [] →
      update_event store now event_id (dumpPatch p) = .ok (some item, store)) ∧
    (dumpPatch p ≠ [] →
      update_event store now event_id (dumpPatch p) =
        .ok (some (updItem item now (dumpPatch p)),
             storeSet store event_id (updItem item now (dumpPatch p))) ∧
      getAttr (updItem item now (dumpPatch p)) "updatedAt" = some (.s now) ∧
      getAttr (updItem item now (dumpPatch p)) "eventId" = getAttr item "eventId" ∧
      getAttr (updItem item now (dumpPatch p)) "createdAt" = getAttr item "createdAt" ∧
      (∀ k, k ≠ "updatedAt" →
        (∀ v, ((k, some v) : String × Option AttrValue) ∉ dumpPatch p) →
        getAttr (updItem item now (dumpPatch p)) k = getAttr item k) ∧
      (∀ k v, ((k, some v) : String × Option AttrValue) ∈ dumpPatch p →
        getAttr (updItem item now (dumpPatch p)) k = some v)) := by
  refine ⟨?_, ?_, ?_⟩
  · rw [parseEventUpdate_ignores]
    exact hparse
  · intro hud
    rw [hud]
    exact update_event_empty hid hitem
  · intro hud
    refine ⟨update_event_found hid hud hitem, ?_, ?_, ?_, ?_, ?_⟩
    · unfold updItem
      rw [applyUpdates_frame (dumpPatch p) _ "updatedAt"
        (fun v hv => absurd rfl (dumpPatch_key_not_system hv).1)]
      exact getAttr_setAttr_self item "updatedAt" (.s now)
    · unfold updItem
      rw [applyUpdates_frame (dumpPatch p) _ "eventId"
        (fun v hv => absurd rfl (dumpPatch_key_not_system hv).2.1)]
      exact getAttr_setAttr_ne item "updatedAt" (.s now) "eventId" (by decide)
    · unfold updItem
      rw [applyUpdates_frame (dumpPatch p) _ "createdAt"
        (fun v hv => absurd rfl (dumpPatch_key_not_system hv).2.2)]
      exact getAttr_setAttr_ne item "updatedAt" (.s now) "createdAt" (by decide)
    · intro k hk hnot
      unfold updItem
      rw [applyUpdates_frame (dumpPatch p) _ k hnot]
      exact getAttr_setAttr_ne item "updatedAt" (.s now) k hk
    · intro k v hmem
      unfold updItem
      exact applyUpdates_applied (dumpPatch p) _ k v (dumpPatch_keys_nodup p) hmem

/-- C3, witness: the frame theorem applied to the fixture store, a PUT
body setting only the title, and raw eventId and createdAt keys prepended
to the payload. -/
theorem claim_C3_update_frame_witness :
    parseEventUpdate (("eventId", .jstr "zz") :: ("createdAt", .jstr "t9") ::
        [("title", .jstr "X")]) = .ok patchTitleX ∧
    (dumpPatch patchTitleX = [] →
      update_event fixtureStore "t1" "e1" (dumpPatch patchTitleX) =
        .ok (some fixtureItem, fixtureStore)) ∧
    (dumpPatch patchTitleX ≠ [] →
      update_event fixtureStore "t1" "e1" (dumpPatch patchTitleX) =
        .ok (some (updItem fixtureItem "t1" (dumpPatch patchTitleX)),
             storeSet fixtureStore "e1" (updItem fixtureItem "t1" (dumpPatch patchTitleX))) ∧
      getAttr (updItem fixtureItem "t1" (dumpPatch patchTitleX)) "updatedAt" =
        some (.s "t1") ∧
      getAttr (updItem fixtureItem "t1" (dumpPatch patchTitleX)) "eventId" =
        getAttr fixtureItem "eventId" ∧
      getAttr (updItem fixtureItem "t1" (dumpPatch patchTitleX)) "createdAt" =
        getAttr fixtureItem "createdAt" ∧
      (∀ k, k ≠ "updatedAt" →
        (∀ v, ((k, some v) : String × Option AttrValue) ∉ dumpPatch patchTitleX) →
        getAttr (updItem fixtureItem "t1" (dumpPatch patchTitleX)) k =
          getAttr fixtureItem k) ∧
      (∀ k v, ((k, some v) : String × Option AttrValue) ∈ dumpPatch patchTitleX →
        getAttr (updItem fixtureItem "t1" (dumpPatch patchTitleX)) k = some v)) :=
  claim_C3_update_frame fixtureStore "t1" "e1" [("title", .jstr "X")]
    patchTitleX fixtureItem (.jstr "zz") (.jstr "t9")
    (by decide) (by decide) (by decide)

/-- C8: a valid create payload without eventId is stored under the freshly
generated identifier, with createdAt equal to updatedAt (both the gateway
timestamp), and with every string field free of surrounding whitespace:
title, description, location and organizer are stored trimmed, the date is
stored as validated (the accepted ISO grammar admits no surrounding
whitespace), and the status literal contains none. -/
theorem claim_C8_create_fresh (store : Store) (genId now : String)
    (r : EventCreateRaw) (d : EventCreateData)
    (hval : eventCreate_validate r = .ok d)
    (hnoid : r.eventId = none)
    (hfresh : lookupStore store genId = none) :
    create_event store genId now d =
      .ok (createItem genId now d, storeSet store genId (createItem genId now d)) ∧
    getAttr (createItem genId now d) "eventId" = some (.s genId) ∧
    getAttr (createItem genId now d) "createdAt" = some (.s now) ∧
    getAttr (createItem genId now d) "updatedAt" = some (.s now) ∧
    d.title = pyStrip r.title ∧ pyStrip d.title = d.title ∧
    d.description = pyStrip r.description ∧ pyStrip d.description = d.description ∧
    d.location = pyStrip r.location ∧ pyStrip d.location = d.location ∧
    d.organizer = pyStrip r.organizer ∧ pyStrip d.organizer = d.organizer ∧
    d.date = r.date ∧ pyStrip d.date = d.date ∧
    pyStrip d.status = d.status := by
  obtain ⟨hid, hti, hde, hda, hiso, hlo, hca, hor, hst, hstok⟩ :=
    eventCreate_validate_ok hval
  have hdid : d.eventId = none := by rw [hid, hnoid]; rfl
  have hcid : createEventId genId d = genId := createEventId_none hdid
  refine ⟨?_, ?_, ?_, ?_, hti, ?_, hde, ?_, hlo, ?_, hor, ?_, hda, ?_, ?_⟩
  · unfold create_event
    rw [hcid, hfresh]
    rfl
  · simp [createItem, getAttr]
  · simp [createItem, getAttr]
  · simp [createItem, getAttr]
  · rw [hti]
    exact pyStrip_idem r.title
  · rw [hde]
    exact pyStrip_idem r.description
  · rw [hlo]
    exact pyStrip_idem r.location
  · rw [hor]
    exact pyStrip_idem r.organizer
  · rw [hda]
    exact pyStrip_of_dateOk hiso
  · rw [hst]
    unfold statusLiteralOk at hstok
    simp only [Bool.or_eq_true, decide_eq_true_eq] at hstok
    rcases hstok with (((h1 | h1) | h1) | h1) | h1 <;> rw [h1] <;> decide

/-- C8, witness: the fresh-create theorem applied to the padded raw
payload fixture over the empty store. -/
theorem claim_C8_create_fresh_witness :
    create_event ([] : Store) "uuid-1" "t1" fixtureCreateOk =
      .ok (createItem "uuid-1" "t1" fixtureCreateOk,
           storeSet [] "uuid-1" (createItem "uuid-1" "t1" fixtureCreateOk)) ∧
    getAttr (createItem "uuid-1" "t1" fixtureCreateOk) "eventId" = some (.s "uuid-1") ∧
    getAttr (createItem "uuid-1" "t1" fixtureCreateOk) "createdAt" = some (.s "t1") ∧
    getAttr (createItem "uuid-1" "t1" fixtureCreateOk) "updatedAt" = some (.s "t1") ∧
    fixtureCreateOk.title = pyStrip fixtureCreateRaw.title ∧
    pyStrip fixtureCreateOk.title = fixtureCreateOk.title ∧
    fixtureCreateOk.description = pyStrip fixtureCreateRaw.description ∧
    pyStrip fixtureCreateOk.description = fixtureCreateOk.description ∧
    fixtureCreateOk.location = pyStrip fixtureCreateRaw.location ∧
    pyStrip fixtureCreateOk.location = fixtureCreateOk.location ∧
    fixtureCreateOk.organizer = pyStrip fixtureCreateRaw.organizer ∧
    pyStrip fixtureCreateOk.organizer = fixtureCreateOk.organizer ∧
    fixtureCreateOk.date = fixtureCreateRaw.date ∧
    pyStrip fixtureCreateOk.date = fixtureCreateOk.date ∧
    pyStrip fixtureCreateOk.status = fixtureCreateOk.status :=
  claim_C8_create_fresh [] "uuid-1" "t1" fixtureCreateRaw fixtureCreateOk
    (by decide) rfl rfl

/-- C9: for every limit of at least one, list_events returns exactly the
first min(limit, size) items of the scan — following continuation keys
across pages of any backend page-size schedule until the limit is met or
the store signals no more data — and without a limit it returns the whole
table. -/
theorem claim_C9_list_limit (table : List Item) (caps : Nat → Nat) (l : Nat)
    (hl : 1 ≤ l) :
    list_events table caps (some l) = table.take l ∧
    (list_events table caps (some l)).length = min l table.length ∧
    list_events table caps none = table := by
  refine ⟨list_events_take table caps l hl, ?_, list_events_all table caps⟩
  rw [list_events_take table caps l hl, List.length_take]

/-- C9, witness: limit 2 against the five-item fixture table with a
backend page size of one, forcing several internal pages. -/
theorem claim_C9_list_limit_witness :
    list_events fixtureTable (fun _ => 1) (some 2) = fixtureTable.take 2 ∧
    (list_events fixtureTable (fun _ => 1) (some 2)).length = min 2 fixtureTable.length ∧
    list_events fixtureTable (fun _ => 1) none = fixtureTable :=
  claim_C9_list_limit fixtureTable (fun _ => 1) 2 (by decide)

/-- C10: a PUT body that parses to a non-empty patch consisting only of
explicitly-null fields is not rejected as an empty patch: the handler
accepts it, the update stamps updatedAt to the update time, and every
other stored attribute keeps its value — an explicit null never overwrites
a stored value. -/
theorem claim_C10_null_patch (store : Store) (now event_id : String)
    (body : List (String × JVal)) (p : EventUpdatePatch) (item : Item)
    (hid : pyStrip event_id ≠ "")
    (_hparse : parseEventUpdate body = .ok p)
    (hne : dumpPatch p ≠ [])
    (hnull : ∀ e ∈ dumpPatch p, e.2 = none)
    (hitem : lookupStore store event_id = some item) :
    update_event_handler store now event_id p =
      .ok (some (setAttr item "updatedAt" (.s now)),
           storeSet store event_id (setAttr item "updatedAt" (.s now))) ∧
    getAttr (setAttr item "updatedAt" (.s now)) "updatedAt" = some (.s now) ∧
    (∀ k, k ≠ "updatedAt" →
      getAttr (setAttr item "updatedAt" (.s now)) k = getAttr item k) := by
  have hupd : updItem item now (dumpPatch p) = setAttr item "updatedAt" (.s now) := by
    unfold updItem
    exact applyUpdates_all_none (dumpPatch p) _ hnull
  refine ⟨?_, getAttr_setAttr_self item "updatedAt" (.s now),
    fun k hk => getAttr_setAttr_ne item "updatedAt" (.s now) k hk⟩
  unfold update_event_handler
  rw [if_neg hne, update_event_found hid hne hitem, hupd]

/-- C10, witness: the all-null-patch theorem applied to the body whose
only entry is an explicitly null title, against the fixture store. -/
theorem claim_C10_null_patch_witness :
    update_event_handler fixtureStore "t1" "e1" patchTitleNull =
      .ok (some (setAttr fixtureItem "updatedAt" (.s "t1")),
           storeSet fixtureStore "e1" (setAttr fixtureItem "updatedAt" (.s "t1"))) ∧
    getAttr (setAttr fixtureItem "updatedAt" (.s "t1")) "updatedAt" = some (.s "t1") ∧
    (∀ k, k ≠ "updatedAt" →
      getAttr (setAttr fixtureItem "updatedAt" (.s "t1")) k = getAttr fixtureItem k) :=
  claim_C10_null_patch fixtureStore "t1" "e1" [("title", .jnull)] patchTitleNull
    fixtureItem (by decide) (by decide) (by decide) (by decide) (by decide)

end EventsCrud
